import Mathlib

/-!
# Verification of the Datadog call-instrumentation adapter

Shallow embedding of the instrumentation core of the repository
(`src/unnamed/part_000`, the per-function wrapper variant that the spec's
design notes declare canonical): the attribute sanitizer `cleanAttributes`,
the generic adapter `instrumentFirebaseCall`, and the live-query wrapper
`loggedOnSnapshot`.

JavaScript values are modelled by `JVal`; records (`Record<string, any>`)
by association lists read with last-binding-wins semantics (`getAttr`),
matching JS object-literal spreads where a later key overrides an earlier
one.  `JSON.stringify` is modelled by `jsonStringify`, returning
`Except String String` so that a value whose stringification throws
(modelled by the constructor `JVal.objBad msg`, e.g. a cyclic object) is
observable.  The external `DdLogs` sink is modelled as a list of emitted
`LogEntry`s; promise outcomes as `Except JError α`; `performance.now()`
readings as explicit integer clock values.
-/

set_option maxHeartbeats 1000000

/-- A JavaScript value, as far as the instrumentation layer observes it.
`objBad msg` stands for a non-array object whose `JSON.stringify` throws
an exception carrying message `msg` (e.g. a cyclic structure). -/
inductive JVal : Type where
  | undef : JVal
  | null : JVal
  | bool : Bool → JVal
  | num : Int → JVal
  | str : String → JVal
  | arr : List JVal → JVal
  | obj : List (String × JVal) → JVal
  | objBad : String → JVal

/-- A JS record / object used as an attribute mapping: an association list
of own enumerable properties in insertion order. -/
abbrev Obj := List (String × JVal)

/-- `value === null`. -/
def isNull : JVal → Bool
  | JVal.null => true
  | _ => false

/-- `value === undefined`. -/
def isUndef : JVal → Bool
  | JVal.undef => true
  | _ => false

/-- The JS `typeof` operator restricted to the modelled values. -/
def jtypeof : JVal → String
  | JVal.undef => "undefined"
  | JVal.null => "object"
  | JVal.bool _ => "boolean"
  | JVal.num _ => "number"
  | JVal.str _ => "string"
  | JVal.arr _ => "object"
  | JVal.obj _ => "object"
  | JVal.objBad _ => "object"

/-- `Array.isArray`. -/
def isArray : JVal → Bool
  | JVal.arr _ => true
  | _ => false

/-- JS truthiness, used by the source's `error.code || 'unknown_code'`. -/
def truthy : JVal → Bool
  | JVal.undef => false
  | JVal.null => false
  | JVal.bool b => b
  | JVal.num n => decide (n ≠ 0)
  | JVal.str s => decide (s ≠ "")
  | JVal.arr _ => true
  | JVal.obj _ => true
  | JVal.objBad _ => true

/-- JSON string escaping for one character (quote and backslash). -/
def jsonQuoteChar (c : Char) : String :=
  if c = '"' then "\\\"" else if c = '\\' then "\\\\" else String.singleton c

/-- JSON quoting of a string value. -/
def jsonQuote (s : String) : String :=
  "\"" ++ String.join (s.data.map jsonQuoteChar) ++ "\""

mutual

/-- `JSON.stringify`, with a thrown serialization exception surfaced as
`Except.error` carrying the exception's message.  (Top-level `undefined`
never reaches this model's call sites; inside an array JSON renders
`undefined` as `null`, which the `undef` case provides.) -/
def jsonStringify : JVal → Except String String
  | JVal.undef => Except.ok "null"
  | JVal.null => Except.ok "null"
  | JVal.bool b => Except.ok (cond b "true" "false")
  | JVal.num n => Except.ok (toString n)
  | JVal.str s => Except.ok (jsonQuote s)
  | JVal.arr xs =>
      match jsonArrayItems xs with
      | Except.ok parts => Except.ok ("[" ++ String.intercalate "," parts ++ "]")
      | Except.error m => Except.error m
  | JVal.obj fs =>
      match jsonObjFields fs with
      | Except.ok parts => Except.ok ("\x7b" ++ String.intercalate "," parts ++ "\x7d")
      | Except.error m => Except.error m
  | JVal.objBad m => Except.error m

/-- Serialize the items of a JSON array, propagating a thrown exception. -/
def jsonArrayItems : List JVal → Except String (List String)
  | [] => Except.ok []
  | v :: vs =>
      match jsonStringify v with
      | Except.error m => Except.error m
      | Except.ok s =>
          match jsonArrayItems vs with
          | Except.error m => Except.error m
          | Except.ok rest => Except.ok (s :: rest)

/-- Serialize the fields of a JSON object; fields whose value is
`undefined` are skipped, as `JSON.stringify` does. -/
def jsonObjFields : List (String × JVal) → Except String (List String)
  | [] => Except.ok []
  | (k, v) :: fs =>
      match v with
      | JVal.undef => jsonObjFields fs
      | _ =>
          match jsonStringify v with
          | Except.error m => Except.error m
          | Except.ok s =>
              match jsonObjFields fs with
              | Except.error m => Except.error m
              | Except.ok rest => Except.ok ((jsonQuote k ++ ":" ++ s) :: rest)

end

/-- Property read on a JS object: the value of the LAST binding of `key`
(later spread entries and assignments override earlier ones). -/
def getAttr : Obj → String → Option JVal
  | [], _ => none
  | (k, v) :: rest, key =>
      match getAttr rest key with
      | some w => some w
      | none => if k = key then some v else none

/-- The keys of a record, in insertion order. -/
def objKeys (o : Obj) : List String := o.map Prod.fst

/-- The value transform the sanitizer applies to a retained value
(source `src/unnamed/part_000` lines 29–37): a plain non-array object is
replaced by its JSON text, a thrown stringification by the diagnostic
placeholder; all other values pass through unchanged. -/
def cleanValue (value : JVal) : JVal :=
  if jtypeof value = "object" ∧ isArray value = false then
    match jsonStringify value with
    | Except.ok s => JVal.str s
    | Except.error m => JVal.str ("[Object unable to stringify: " ++ m ++ "]")
  else value

/-- The attribute sanitizer `cleanAttributes` of `src/unnamed/part_000`
(lines 21–42): drops entries whose value is `null` or `undefined` and the
reserved key `status`, and applies `cleanValue` to every retained value. -/
def cleanAttributes : Obj → Obj
  | [] => []
  | (key, value) :: rest =>
      if isNull value = false ∧ isUndef value = false ∧ key ≠ "status" then
        (key, cleanValue value) :: cleanAttributes rest
      else cleanAttributes rest

/-! ## Basic lemmas about `getAttr` -/

theorem getAttr_nil (key : String) : getAttr [] key = none := rfl

theorem getAttr_append (xs ys : Obj) (key : String) :
    getAttr (xs ++ ys) key =
      match getAttr ys key with
      | some w => some w
      | none => getAttr xs key := by
  induction xs with
  | nil =>
      simp only [List.nil_append, getAttr]
      cases getAttr ys key <;> rfl
  | cons p rest ih =>
      obtain ⟨k, v⟩ := p
      show (match getAttr (rest ++ ys) key with
            | some w => some w
            | none => if k = key then some v else none) = _
      rw [ih]
      cases hy : getAttr ys key <;> cases hr : getAttr rest key <;>
        simp [getAttr, hy, hr]

theorem getAttr_append_singleton_self (xs : Obj) (key : String) (v : JVal) :
    getAttr (xs ++ [(key, v)]) key = some v := by
  rw [getAttr_append]
  simp [getAttr]

theorem getAttr_append_singleton_ne (xs : Obj) (k key : String) (v : JVal)
    (h : k ≠ key) : getAttr (xs ++ [(k, v)]) key = getAttr xs key := by
  rw [getAttr_append]
  simp [getAttr, h]

theorem getAttr_eq_none_of_not_mem (xs : Obj) (key : String)
    (h : key ∉ objKeys xs) : getAttr xs key = none := by
  induction xs with
  | nil => rfl
  | cons p rest ih =>
      obtain ⟨k, v⟩ := p
      simp only [objKeys, List.map_cons, List.mem_cons, not_or] at h
      have hrest : getAttr rest key = none := ih (by simpa [objKeys] using h.2)
      show (match getAttr rest key with
            | some w => some w
            | none => if k = key then some v else none) = none
      rw [hrest]
      exact if_neg fun hk => h.1 hk.symm

theorem mem_objKeys_of_getAttr_eq_some (xs : Obj) (key : String) (v : JVal)
    (h : getAttr xs key = some v) : key ∈ objKeys xs := by
  by_contra hmem
  rw [getAttr_eq_none_of_not_mem xs key hmem] at h
  exact Option.noConfusion h

theorem getAttr_cons_ne (k K : String) (v : JVal) (rest : Obj) (h : k ≠ K) :
    getAttr ((k, v) :: rest) K = getAttr rest K := by
  show (match getAttr rest K with
        | some w => some w
        | none => if k = K then some v else none) = getAttr rest K
  cases getAttr rest K
  · exact if_neg h
  · rfl

theorem getAttr_cons_self (k : String) (v : JVal) (rest : Obj)
    (h : getAttr rest k = none) : getAttr ((k, v) :: rest) k = some v := by
  show (match getAttr rest k with
        | some w => some w
        | none => if k = k then some v else none) = some v
  rw [h]
  exact if_pos rfl

theorem objKeys_cleanAttributes_subset (m : Obj) (K : String)
    (h : K ∈ objKeys (cleanAttributes m)) : K ∈ objKeys m := by
  induction m with
  | nil => exact h
  | cons p rest ih =>
      obtain ⟨k, v⟩ := p
      simp only [cleanAttributes] at h
      by_cases hc : isNull v = false ∧ isUndef v = false ∧ k ≠ "status"
      · rw [if_pos hc] at h
        simp only [objKeys, List.map_cons, List.mem_cons] at h ⊢
        rcases h with h | h
        · exact Or.inl h
        · exact Or.inr (ih h)
      · rw [if_neg hc] at h
        simp only [objKeys, List.map_cons, List.mem_cons]
        exact Or.inr (ih h)

/-- Full characterization of the sanitizer: what `getAttr` returns on the
sanitized record, for a record with no duplicate keys (JS objects never
hold duplicate keys). -/
theorem getAttr_cleanAttributes (m : Obj) (hnd : (objKeys m).Nodup) (K : String) :
    getAttr (cleanAttributes m) K =
      match getAttr m K with
      | none => none
      | some v =>
          if isNull v = false ∧ isUndef v = false ∧ K ≠ "status" then
            some (cleanValue v)
          else none := by
  induction m with
  | nil => rfl
  | cons p rest ih =>
      obtain ⟨k, v⟩ := p
      simp only [objKeys, List.map_cons, List.nodup_cons] at hnd
      obtain ⟨hk_not, hnd_rest⟩ := hnd
      have ihr := ih (by simpa [objKeys] using hnd_rest)
      by_cases hK : K = k
      · subst hK
        have hrest_none : getAttr rest K = none :=
          getAttr_eq_none_of_not_mem rest K (by simpa [objKeys] using hk_not)
        have hclean_none : getAttr (cleanAttributes rest) K = none := by
          apply getAttr_eq_none_of_not_mem
          intro hmem
          have hK2 : K ∈ objKeys rest := objKeys_cleanAttributes_subset rest K hmem
          exact hk_not (by simpa [objKeys] using hK2)
        rw [getAttr_cons_self K v rest hrest_none]
        simp only [cleanAttributes]
        by_cases hc : isNull v = false ∧ isUndef v = false ∧ K ≠ "status"
        · rw [if_pos hc, if_pos hc]
          exact getAttr_cons_self K (cleanValue v) (cleanAttributes rest) hclean_none
        · rw [if_neg hc, if_neg hc]
          exact hclean_none
      · have hne : k ≠ K := fun h => hK h.symm
        rw [getAttr_cons_ne k K v rest hne]
        simp only [cleanAttributes]
        by_cases hc : isNull v = false ∧ isUndef v = false ∧ k ≠ "status"
        · rw [if_pos hc, getAttr_cons_ne k K (cleanValue v) (cleanAttributes rest) hne]
          exact ihr
        · rw [if_neg hc]
          exact ihr

/-- A value that survives one sanitization pass is a fixed point of the
value transform and is neither null nor undefined. -/
theorem cleanValue_idem (v : JVal) (h1 : isNull v = false) (h2 : isUndef v = false) :
    isNull (cleanValue v) = false ∧ isUndef (cleanValue v) = false ∧
      cleanValue (cleanValue v) = cleanValue v := by
  cases v with
  | undef => exact absurd h2 (by simp [isUndef])
  | null => exact absurd h1 (by simp [isNull])
  | bool b => simp [cleanValue, jtypeof, isArray, isNull, isUndef]
  | num n => simp [cleanValue, jtypeof, isArray, isNull, isUndef]
  | str s => simp [cleanValue, jtypeof, isArray, isNull, isUndef]
  | arr xs => simp [cleanValue, jtypeof, isArray, isNull, isUndef]
  | obj fs =>
      have hcond : jtypeof (JVal.obj fs) = "object" ∧ isArray (JVal.obj fs) = false := by
        simp [jtypeof, isArray]
      simp only [cleanValue, if_pos hcond]
      cases hs : jsonStringify (JVal.obj fs) <;>
        simp [cleanValue, jtypeof, isArray, isNull, isUndef]
  | objBad msg =>
      have hcond : jtypeof (JVal.objBad msg) = "object" ∧ isArray (JVal.objBad msg) = false := by
        simp [jtypeof, isArray]
      simp only [cleanValue, if_pos hcond]
      cases hs : jsonStringify (JVal.objBad msg) <;>
        simp [cleanValue, jtypeof, isArray, isNull, isUndef]

/-! ## String helper lemmas -/

theorem string_data_append (s t : String) : (s ++ t).data = s.data ++ t.data := by
  cases s
  cases t
  rfl

theorem string_append_left_cancel (s a b : String) (h : s ++ a = s ++ b) : a = b := by
  have hd : s.data ++ a.data = s.data ++ b.data := by
    rw [← string_data_append, ← string_data_append, h]
  have h2 := List.append_cancel_left hd
  cases a
  cases b
  exact congrArg String.mk h2

theorem string_append_right_ne (s a b : String) (h : a ≠ b) : s ++ a ≠ s ++ b :=
  fun he => h (string_append_left_cancel s a b he)

/-- No `error_<prop>` attribute name collides with a key whose sixth
character is not an underscore. -/
theorem error_prefix_ne_key (p key : String) (h : key.data.get? 5 ≠ some '_') :
    "error_" ++ p ≠ key := by
  intro he
  apply h
  have hd := congrArg (fun s : String => s.data.get? 5) he
  have h5 : ("error_" ++ p).data.get? 5 = some '_' := by
    rw [string_data_append]
    rfl
  simp only at hd
  rw [h5] at hd
  exact hd.symm

/-! ## The instrumentation adapter (`instrumentFirebaseCall`, lines 48–118) -/

/-- A rejection value as the adapter observes it: the `message`, `code`
and `stack` property reads (each possibly `undefined`), whether the value
is an `instanceof Error`, and its enumerable own properties in insertion
order (the ones `for...in` with `hasOwnProperty` visits). -/
structure JError where
  message : JVal
  code : JVal
  stack : JVal
  isError : Bool
  ownProps : Obj

/-- Severity of a `DdLogs` emission. -/
inductive LogLevel : Type where
  | info : LogLevel
  | error : LogLevel

/-- One emitted log: severity, message string, attribute object. -/
structure LogEntry where
  level : LogLevel
  message : String
  attrs : Obj

/-- Outcome of one adapter invocation: either the synchronous
`JSON.stringify(payload)` at line 63 threw — the async function then
rejects with that exception having emitted no log at all — or the call
ran to completion, emitting `logs` and producing `result` (a returned
value or the re-thrown rejection). -/
inductive RunResult (α : Type) : Type where
  | setupThrow : String → RunResult α
  | done : List LogEntry → Except JError α → RunResult α

/-- The logs emitted by an adapter invocation. -/
def runLogsOf {α : Type} : RunResult α → List LogEntry
  | RunResult.setupThrow _ => []
  | RunResult.done logs _ => logs

/-- Line 63: `payload !== null && payload !== undefined ?
JSON.stringify(payload) : undefined`, with a thrown stringification
surfaced as `Except.error`. -/
def payloadAttrOf (payload : JVal) : Except String JVal :=
  if isNull payload = false ∧ isUndef payload = false then
    match jsonStringify payload with
    | Except.ok s => Except.ok (JVal.str s)
    | Except.error m => Except.error m
  else Except.ok JVal.undef

/-- Lines 57–61: the `commonAttrs` object. -/
def commonAttrsOf (operationName uniqueId : String) : Obj :=
  [("callId", JVal.str uniqueId),
   ("firebaseOperation", JVal.str operationName),
   ("logType", JVal.str "firebase_request")]

/-- Lines 67–72: the "Initiated" log. -/
def initiatedLogOf (operationName uniqueId : String) (cleanedTags : Obj)
    (payloadAttr : JVal) : LogEntry :=
  ⟨LogLevel.info, operationName ++ " - Initiated",
    commonAttrsOf operationName uniqueId ++ cleanedTags ++
      [("payload", payloadAttr), ("callStatus", JVal.str "initiated")]⟩

/-- Lines 78–84: the "Success" log. -/
def successLogOf (operationName uniqueId : String) (cleanedTags : Obj)
    (duration : Int) : LogEntry :=
  ⟨LogLevel.info, operationName ++ " - Success",
    commonAttrsOf operationName uniqueId ++ cleanedTags ++
      [("durationMs", JVal.num duration), ("callStatus", JVal.str "success")]⟩

/-- Lines 100–114: the `for...in` loop that copies every enumerable own
property of an `Error` other than `stack` and `message` into the error
context under an `error_<propertyName>` key, serializing non-array object
values (the transform at lines 103–111 is the sanitizer's `cleanValue`). -/
def addErrorProps (ctx : Obj) (props : Obj) : Obj :=
  props.foldl
    (fun acc pv =>
      if pv.1 ≠ "stack" ∧ pv.1 ≠ "message" then
        acc ++ [("error_" ++ pv.1, cleanValue pv.2)]
      else acc)
    ctx

/-- Lines 89–116: the "Failed" log with its `errorContext`. -/
def failedLogOf (operationName uniqueId : String) (cleanedTags : Obj)
    (duration : Int) (e : JError) (payloadAttr : JVal) : LogEntry :=
  ⟨LogLevel.error, operationName ++ " - Failed",
    (let base :=
      commonAttrsOf operationName uniqueId ++ cleanedTags ++
        [("durationMs", JVal.num duration),
         ("callStatus", JVal.str "failed"),
         ("errorMessage", e.message),
         ("errorCode", if truthy e.code then e.code else JVal.str "unknown_code"),
         ("errorStack", e.stack),
         ("payload", payloadAttr)]
    if e.isError then addErrorProps base e.ownProps else base)⟩

/-- `instrumentFirebaseCall` (src/unnamed/part_000 lines 48–118).  The
in-flight promise is abstracted by its eventual `outcome`; the two
`performance.now()` readings by `startTime` and `now`; the random
correlation id by `uniqueId`. -/
def instrumentFirebaseCall {α : Type} (operationName : String)
    (outcome : Except JError α) (payload : JVal) (tags : Obj)
    (uniqueId : String) (startTime now : Int) : RunResult α :=
  match payloadAttrOf payload with
  | Except.error m => RunResult.setupThrow m
  | Except.ok payloadAttr =>
    let cleanedTags := cleanAttributes tags
    let initLog := initiatedLogOf operationName uniqueId cleanedTags payloadAttr
    match outcome with
    | Except.ok result =>
        RunResult.done
          [initLog, successLogOf operationName uniqueId cleanedTags (now - startTime)]
          (Except.ok result)
    | Except.error e =>
        RunResult.done
          [initLog,
           failedLogOf operationName uniqueId cleanedTags (now - startTime) e payloadAttr]
          (Except.error e)

/-! ## Lemmas about `addErrorProps` -/

/-- Keys not of the form `error_<prop>` for any copied property are
untouched by the error-property loop. -/
theorem addErrorProps_getAttr_of_forall_ne (props : Obj) (ctx : Obj) (key : String)
    (h : ∀ pv : String × JVal, pv ∈ props → "error_" ++ pv.1 ≠ key) :
    getAttr (addErrorProps ctx props) key = getAttr ctx key := by
  induction props generalizing ctx with
  | nil => rfl
  | cons pv rest ih =>
      obtain ⟨p, v⟩ := pv
      simp only [addErrorProps, List.foldl_cons]
      have hrest : ∀ pv : String × JVal, pv ∈ rest → "error_" ++ pv.1 ≠ key :=
        fun pv hpv => h pv (List.mem_cons_of_mem _ hpv)
      by_cases hc : p ≠ "stack" ∧ p ≠ "message"
      · rw [if_pos hc]
        have step := ih (ctx ++ [("error_" ++ p, cleanValue v)]) hrest
        simp only [addErrorProps] at step
        rw [step,
          getAttr_append_singleton_ne ctx ("error_" ++ p) key (cleanValue v)
            (h (p, v) (List.mem_cons_self _ _))]
      · rw [if_neg hc]
        have step := ih ctx hrest
        simp only [addErrorProps] at step
        exact step

/-- Each copied enumerable own property of the error lands in the error
context under its `error_<prop>` key, transformed by `cleanValue`. -/
theorem addErrorProps_getAttr_mem (props : Obj) (ctx : Obj) (prop : String) (v : JVal)
    (hnd : (objKeys props).Nodup) (hmem : (prop, v) ∈ props)
    (hs : prop ≠ "stack") (hm : prop ≠ "message") :
    getAttr (addErrorProps ctx props) ("error_" ++ prop) = some (cleanValue v) := by
  induction props generalizing ctx with
  | nil => exact absurd hmem (List.not_mem_nil _)
  | cons pv rest ih =>
      obtain ⟨p, w⟩ := pv
      simp only [objKeys, List.map_cons, List.nodup_cons] at hnd
      obtain ⟨hp_not, hnd_rest⟩ := hnd
      simp only [addErrorProps, List.foldl_cons]
      rcases List.mem_cons.mp hmem with heq | hmem_rest
      · have hpe : prop = p := congrArg Prod.fst heq
        have hve : v = w := congrArg Prod.snd heq
        subst hpe
        subst hve
        rw [if_pos ⟨hs, hm⟩]
        have hrest_ne : ∀ pv : String × JVal, pv ∈ rest →
            "error_" ++ pv.1 ≠ "error_" ++ prop := by
          intro pv hpv habs
          have hqp : pv.1 = prop := string_append_left_cancel "error_" pv.1 prop habs
          apply hp_not
          rw [← hqp]
          exact List.mem_map_of_mem Prod.fst hpv
        have step := addErrorProps_getAttr_of_forall_ne rest
          (ctx ++ [("error_" ++ prop, cleanValue v)]) ("error_" ++ prop) hrest_ne
        simp only [addErrorProps] at step
        rw [step]
        exact getAttr_append_singleton_self ctx ("error_" ++ prop) (cleanValue v)
      · have hrest2 : (objKeys rest).Nodup := by simpa [objKeys] using hnd_rest
        by_cases hc : p ≠ "stack" ∧ p ≠ "message"
        · rw [if_pos hc]
          exact ih (ctx ++ [("error_" ++ p, cleanValue w)]) hrest2 hmem_rest
        · rw [if_neg hc]
          exact ih ctx hrest2 hmem_rest

/-! ## Reading attributes of the constructed logs -/

theorem getAttr_cct (common ct tail : Obj) (key : String)
    (htail : getAttr tail key = none) :
    getAttr (common ++ ct ++ tail) key =
      match getAttr ct key with
      | some w => some w
      | none => getAttr common key := by
  rw [getAttr_append, htail]
  exact getAttr_append common ct key

theorem getAttr_cct_some (common ct tail : Obj) (key : String) (v : JVal)
    (htail : getAttr tail key = some v) :
    getAttr (common ++ ct ++ tail) key = some v := by
  rw [getAttr_append, htail]

/-- On the "Failed" log, a key that no `error_<prop>` can collide with and
that the fixed error-context tail does not bind is resolved by the tags
and then the common attributes — exactly as on the other two logs. -/
theorem failed_getAttr_fixed (op uid : String) (ct : Obj) (dur : Int)
    (e : JError) (pa : JVal) (key : String)
    (hk : ∀ p : String, "error_" ++ p ≠ key)
    (htail : getAttr
      [("durationMs", JVal.num dur), ("callStatus", JVal.str "failed"),
       ("errorMessage", e.message),
       ("errorCode", if truthy e.code then e.code else JVal.str "unknown_code"),
       ("errorStack", e.stack), ("payload", pa)] key = none) :
    getAttr (failedLogOf op uid ct dur e pa).attrs key =
      match getAttr ct key with
      | some w => some w
      | none => getAttr (commonAttrsOf op uid) key := by
  simp only [failedLogOf]
  cases he : e.isError
  · simp only [he, if_false, Bool.false_eq_true]
    exact getAttr_cct _ ct _ key htail
  · simp only [he, if_true]
    rw [addErrorProps_getAttr_of_forall_ne _ _ key (fun pv _ => hk pv.1)]
    exact getAttr_cct _ ct _ key htail

/-- On the "Failed" log, a key bound by the fixed error-context tail and
safe from `error_<prop>` collision reads its tail value. -/
theorem failed_getAttr_tail_some (op uid : String) (ct : Obj) (dur : Int)
    (e : JError) (pa : JVal) (key : String) (v : JVal)
    (hk : ∀ p : String, "error_" ++ p ≠ key)
    (htail : getAttr
      [("durationMs", JVal.num dur), ("callStatus", JVal.str "failed"),
       ("errorMessage", e.message),
       ("errorCode", if truthy e.code then e.code else JVal.str "unknown_code"),
       ("errorStack", e.stack), ("payload", pa)] key = some v) :
    getAttr (failedLogOf op uid ct dur e pa).attrs key = some v := by
  simp only [failedLogOf]
  cases he : e.isError
  · simp only [he, if_false, Bool.false_eq_true]
    exact getAttr_cct_some _ ct _ key v htail
  · simp only [he, if_true]
    rw [addErrorProps_getAttr_of_forall_ne _ _ key (fun pv _ => hk pv.1)]
    exact getAttr_cct_some _ ct _ key v htail

/-! ## Claim C8: idempotence of the sanitizer -/

/-- C8 — The sanitizer is idempotent: sanitizing an already-sanitized
attribute mapping returns it unchanged; sanitized mappings are fixed
points of `cleanAttributes`. -/
theorem cleanAttributes_idempotent (m : Obj) :
    cleanAttributes (cleanAttributes m) = cleanAttributes m := by
  induction m with
  | nil => rfl
  | cons p rest ih =>
      obtain ⟨k, v⟩ := p
      simp only [cleanAttributes]
      by_cases hc : isNull v = false ∧ isUndef v = false ∧ k ≠ "status"
      · rw [if_pos hc]
        obtain ⟨n1, n2, hvv⟩ := cleanValue_idem v hc.1 hc.2.1
        simp only [cleanAttributes]
        rw [if_pos ⟨n1, n2, hc.2.2⟩, hvv, ih]
      · rw [if_neg hc, ih]

/-- Specialization of the characterization when the key is bound. -/
theorem getAttr_cleanAttributes_some (m : Obj) (hnd : (objKeys m).Nodup)
    (K : String) (v : JVal) (hm : getAttr m K = some v) :
    getAttr (cleanAttributes m) K =
      if isNull v = false ∧ isUndef v = false ∧ K ≠ "status" then
        some (cleanValue v)
      else none := by
  rw [getAttr_cleanAttributes m hnd K, hm]

/-- Specialization of the characterization when the key is unbound. -/
theorem getAttr_cleanAttributes_none (m : Obj) (hnd : (objKeys m).Nodup)
    (K : String) (hm : getAttr m K = none) :
    getAttr (cleanAttributes m) K = none := by
  rw [getAttr_cleanAttributes m hnd K, hm]

/-! ## Claim C3: presence characterization of the sanitizer -/

/-- C3 — For every attribute mapping `m` (a JS record, so with no
duplicate keys) and every key `K`: the sanitizer's output contains `K`
iff `m[K]` is neither null nor undefined, except the reserved key
`status`, which is always absent; retained plain non-array object values
are replaced by their JSON-serialized text and every other retained value
passes through unchanged. -/
theorem cleanAttributes_presence_iff (m : Obj) (hnd : (objKeys m).Nodup) :
    ∀ K : String,
      ((∃ v, getAttr (cleanAttributes m) K = some v) ↔
        (K ≠ "status" ∧ ∃ v, getAttr m K = some v ∧ isNull v = false ∧ isUndef v = false))
      ∧ getAttr (cleanAttributes m) "status" = none
      ∧ (∀ v, getAttr m K = some v → isNull v = false → isUndef v = false →
          K ≠ "status" →
          ((jtypeof v = "object" ∧ isArray v = false →
              getAttr (cleanAttributes m) K =
                some (match jsonStringify v with
                      | Except.ok s => JVal.str s
                      | Except.error m2 =>
                          JVal.str ("[Object unable to stringify: " ++ m2 ++ "]")))
            ∧ (¬(jtypeof v = "object" ∧ isArray v = false) →
                getAttr (cleanAttributes m) K = some v))) := by
  intro K
  refine ⟨⟨?_, ?_⟩, ?_, ?_⟩
  · rintro ⟨v', hv'⟩
    cases hm : getAttr m K with
    | none =>
        rw [getAttr_cleanAttributes_none m hnd K hm] at hv'
        exact absurd hv' (by simp)
    | some v =>
        rw [getAttr_cleanAttributes_some m hnd K v hm] at hv'
        by_cases hcond : isNull v = false ∧ isUndef v = false ∧ K ≠ "status"
        · exact ⟨hcond.2.2, v, rfl, hcond.1, hcond.2.1⟩
        · rw [if_neg hcond] at hv'
          exact absurd hv' (by simp)
  · rintro ⟨hK, v, hm, h1, h2⟩
    rw [getAttr_cleanAttributes_some m hnd K v hm, if_pos ⟨h1, h2, hK⟩]
    exact ⟨cleanValue v, rfl⟩
  · cases hm : getAttr m "status" with
    | none => exact getAttr_cleanAttributes_none m hnd "status" hm
    | some v =>
        rw [getAttr_cleanAttributes_some m hnd "status" v hm, if_neg (by simp)]
  · intro v hm h1 h2 hK
    constructor
    · intro hobj
      rw [getAttr_cleanAttributes_some m hnd K v hm, if_pos ⟨h1, h2, hK⟩]
      simp only [cleanValue, if_pos hobj]
    · intro hnotobj
      rw [getAttr_cleanAttributes_some m hnd K v hm, if_pos ⟨h1, h2, hK⟩]
      simp only [cleanValue, if_neg hnotobj]

/-- Witness for C3 at the concrete mapping
`[a ↦ 1, b ↦ null, status ↦ 2]`: `status` is dropped and `a` survives
unchanged. -/
theorem cleanAttributes_presence_iff_witness :
    (objKeys [("a", JVal.num 1), ("b", JVal.null), ("status", JVal.num 2)]).Nodup
    ∧ getAttr (cleanAttributes
        [("a", JVal.num 1), ("b", JVal.null), ("status", JVal.num 2)]) "status" = none
    ∧ getAttr (cleanAttributes
        [("a", JVal.num 1), ("b", JVal.null), ("status", JVal.num 2)]) "a"
        = some (JVal.num 1) := by
  have hnd : (objKeys [("a", JVal.num 1), ("b", JVal.null), ("status", JVal.num 2)]).Nodup := by
    decide
  refine ⟨hnd, ?_, ?_⟩
  · exact (cleanAttributes_presence_iff _ hnd "status").2.1
  · exact ((cleanAttributes_presence_iff _ hnd "a").2.2 (JVal.num 1) rfl rfl rfl
      (by decide)).2 (by decide)

/-! ## Claim C6: a throwing stringification never propagates -/

/-- C6 — If an attribute's value is one whose `JSON.stringify` throws
(with message `msg`), the sanitizer neither raises nor aborts: in the
model `cleanAttributes` stays a total function whose output still binds
every other retained key, and the offending value is replaced by the
diagnostic placeholder — a string containing `"unable to stringify"`
(and embedding the thrown message). -/
theorem cleanAttributes_stringify_failure_placeholder (m : Obj) (K msg : String)
    (hnd : (objKeys m).Nodup) (hv : getAttr m K = some (JVal.objBad msg))
    (hK : K ≠ "status") :
    getAttr (cleanAttributes m) K =
      some (JVal.str ("[Object unable to stringify: " ++ msg ++ "]"))
    ∧ ("unable to stringify").data <:+:
        ("[Object unable to stringify: " ++ msg ++ "]").data
    ∧ (∀ K2 v2, getAttr m K2 = some v2 → isNull v2 = false → isUndef v2 = false →
        K2 ≠ "status" → ∃ v3, getAttr (cleanAttributes m) K2 = some v3) := by
  refine ⟨?_, ?_, ?_⟩
  · rw [getAttr_cleanAttributes_some m hnd K (JVal.objBad msg) hv,
      if_pos ⟨rfl, rfl, hK⟩]
    rfl
  · refine ⟨("[Object ").data, (": " ++ msg ++ "]").data, ?_⟩
    have hcat : ∀ X : List Char,
        "[Object ".data ++ ("unable to stringify".data ++ (": ".data ++ X))
          = "[Object unable to stringify: ".data ++ X := by
      intro X
      rw [← List.append_assoc, ← List.append_assoc]
      congr 1
    simp only [string_data_append, List.append_assoc]
    exact hcat (msg.data ++ "]".data)
  · intro K2 v2 hm2 h1 h2 hK2
    rw [getAttr_cleanAttributes_some m hnd K2 v2 hm2, if_pos ⟨h1, h2, hK2⟩]
    exact ⟨cleanValue v2, rfl⟩

/-- Witness for C6 at the mapping `[bad ↦ throwing-object, x ↦ 7]`. -/
theorem cleanAttributes_stringify_failure_witness :
    (objKeys [("bad", JVal.objBad "cyclic"), ("x", JVal.num 7)]).Nodup
    ∧ getAttr [("bad", JVal.objBad "cyclic"), ("x", JVal.num 7)] "bad"
        = some (JVal.objBad "cyclic")
    ∧ getAttr (cleanAttributes [("bad", JVal.objBad "cyclic"), ("x", JVal.num 7)]) "bad"
        = some (JVal.str ("[Object unable to stringify: " ++ "cyclic" ++ "]"))
    ∧ ("unable to stringify").data <:+:
        ("[Object unable to stringify: " ++ "cyclic" ++ "]").data := by
  have hnd : (objKeys [("bad", JVal.objBad "cyclic"), ("x", JVal.num 7)]).Nodup := by
    decide
  have h := cleanAttributes_stringify_failure_placeholder
    [("bad", JVal.objBad "cyclic"), ("x", JVal.num 7)] "bad" "cyclic" hnd rfl (by decide)
  exact ⟨hnd, rfl, h.1, h.2.1⟩

/-! ## Unfolding the adapter -/

theorem instrumentFirebaseCall_failed_eq {α : Type} (op : String) (e : JError)
    (payload pa : JVal) (tags : Obj) (uid : String) (t0 t1 : Int)
    (hpay : payloadAttrOf payload = Except.ok pa) :
    instrumentFirebaseCall op (Except.error e : Except JError α) payload tags uid t0 t1
      = RunResult.done
          [initiatedLogOf op uid (cleanAttributes tags) pa,
           failedLogOf op uid (cleanAttributes tags) (t1 - t0) e pa]
          (Except.error e) := by
  simp only [instrumentFirebaseCall, hpay]

theorem instrumentFirebaseCall_ok_eq {α : Type} (op : String) (v : α)
    (payload pa : JVal) (tags : Obj) (uid : String) (t0 t1 : Int)
    (hpay : payloadAttrOf payload = Except.ok pa) :
    instrumentFirebaseCall op (Except.ok v : Except JError α) payload tags uid t0 t1
      = RunResult.done
          [initiatedLogOf op uid (cleanAttributes tags) pa,
           successLogOf op uid (cleanAttributes tags) (t1 - t0)]
          (Except.ok v) := by
  simp only [instrumentFirebaseCall, hpay]

/-- The i-th emitted log of a run (dummy entry out of range). -/
def logAt (logs : List LogEntry) (i : Nat) : LogEntry :=
  logs.getD i ⟨LogLevel.info, "", []⟩

theorem countP_pair (l1 l2 : LogEntry) (p : LogEntry → Bool)
    (h1 : p l1 = true) (h2 : p l2 = false) :
    ([l1, l2].countP p) = 1 := by
  simp [List.countP_cons, h1, h2]

theorem countP_pair_snd (l1 l2 : LogEntry) (p : LogEntry → Bool)
    (h1 : p l1 = false) (h2 : p l2 = true) :
    ([l1, l2].countP p) = 1 := by
  simp [List.countP_cons, h1, h2]

/-! ## Claim C1 (amended): failing operations -/

/-- C1 (amended: the payload must be absent or JSON-serializable — see the
counterexample `instrumentFirebaseCall_cyclic_payload_reject_cex` for why
the restriction is forced).  For every operation whose wrapped promise
rejects with `e`, the adapter emits exactly one informational
"`<op> - Initiated`" log followed by exactly one error-level
"`<op> - Failed`" log, the two sharing one `callId` attribute, the
failure log's `errorMessage` equals `e`'s message, and the adapter
re-throws the very same error value `e`. -/
theorem instrumentFirebaseCall_reject_logs_and_rethrows {α : Type}
    (op : String) (e : JError) (payload pa : JVal) (tags : Obj) (uid : String)
    (t0 t1 : Int) (hpay : payloadAttrOf payload = Except.ok pa) :
    instrumentFirebaseCall op (Except.error e : Except JError α) payload tags uid t0 t1
      = RunResult.done
          [initiatedLogOf op uid (cleanAttributes tags) pa,
           failedLogOf op uid (cleanAttributes tags) (t1 - t0) e pa]
          (Except.error e)
    ∧ (initiatedLogOf op uid (cleanAttributes tags) pa).level = LogLevel.info
    ∧ (initiatedLogOf op uid (cleanAttributes tags) pa).message = op ++ " - Initiated"
    ∧ (failedLogOf op uid (cleanAttributes tags) (t1 - t0) e pa).level = LogLevel.error
    ∧ (failedLogOf op uid (cleanAttributes tags) (t1 - t0) e pa).message = op ++ " - Failed"
    ∧ ([initiatedLogOf op uid (cleanAttributes tags) pa,
        failedLogOf op uid (cleanAttributes tags) (t1 - t0) e pa].countP
          fun l => l.message == op ++ " - Initiated") = 1
    ∧ ([initiatedLogOf op uid (cleanAttributes tags) pa,
        failedLogOf op uid (cleanAttributes tags) (t1 - t0) e pa].countP
          fun l => l.message == op ++ " - Failed") = 1
    ∧ getAttr (initiatedLogOf op uid (cleanAttributes tags) pa).attrs "callId"
        = getAttr (failedLogOf op uid (cleanAttributes tags) (t1 - t0) e pa).attrs "callId"
    ∧ getAttr (failedLogOf op uid (cleanAttributes tags) (t1 - t0) e pa).attrs "errorMessage"
        = some e.message := by
  refine ⟨instrumentFirebaseCall_failed_eq op e payload pa tags uid t0 t1 hpay,
    rfl, rfl, rfl, rfl, ?_, ?_, ?_, ?_⟩
  · apply countP_pair
    · exact beq_self_eq_true _
    · exact beq_eq_false_iff_ne.mpr
        (string_append_right_ne op " - Failed" " - Initiated" (by decide))
  · apply countP_pair_snd
    · exact beq_eq_false_iff_ne.mpr
        (string_append_right_ne op " - Initiated" " - Failed" (by decide))
    · exact beq_self_eq_true _
  · rw [show (initiatedLogOf op uid (cleanAttributes tags) pa).attrs
        = commonAttrsOf op uid ++ cleanAttributes tags ++
            [("payload", pa), ("callStatus", JVal.str "initiated")] from rfl,
      getAttr_cct (commonAttrsOf op uid) (cleanAttributes tags)
        [("payload", pa), ("callStatus", JVal.str "initiated")] "callId" rfl,
      failed_getAttr_fixed op uid (cleanAttributes tags) (t1 - t0) e pa "callId"
        (fun p => error_prefix_ne_key p "callId" (by decide)) rfl]
  · exact failed_getAttr_tail_some op uid (cleanAttributes tags) (t1 - t0) e pa
      "errorMessage" e.message
      (fun p => error_prefix_ne_key p "errorMessage" (by decide)) rfl

/-- C1 counterexample (claim as frozen): a rejecting operation whose
payload is a cyclic object.  The bare `JSON.stringify(payload)` at line
63 throws before any `DdLogs` call, so the adapter emits NO "Initiated"
and NO "Failed" log and rejects with the stringify exception instead of
re-throwing the original error — contradicting the claim's "exactly one
Initiated … one Failed … re-throws the same error" for this operation. -/
theorem instrumentFirebaseCall_cyclic_payload_reject_cex :
    instrumentFirebaseCall "op"
        (Except.error ⟨JVal.str "boom", JVal.undef, JVal.undef, false, []⟩
          : Except JError Nat)
        (JVal.objBad "cyclic") [] "id1" 0 5
      = RunResult.setupThrow "cyclic"
    ∧ runLogsOf (instrumentFirebaseCall "op"
        (Except.error ⟨JVal.str "boom", JVal.undef, JVal.undef, false, []⟩
          : Except JError Nat)
        (JVal.objBad "cyclic") [] "id1" 0 5) = [] :=
  ⟨rfl, rfl⟩

/-- Witness for C1 at a concrete failing call with absent payload. -/
theorem instrumentFirebaseCall_reject_logs_witness :
    payloadAttrOf JVal.null = Except.ok JVal.undef
    ∧ instrumentFirebaseCall "op"
        (Except.error ⟨JVal.str "m", JVal.undef, JVal.undef, false, []⟩
          : Except JError Nat)
        JVal.null [] "u1" 0 4
      = RunResult.done
          [initiatedLogOf "op" "u1" (cleanAttributes []) JVal.undef,
           failedLogOf "op" "u1" (cleanAttributes []) (4 - 0)
             ⟨JVal.str "m", JVal.undef, JVal.undef, false, []⟩ JVal.undef]
          (Except.error ⟨JVal.str "m", JVal.undef, JVal.undef, false, []⟩)
    ∧ getAttr (failedLogOf "op" "u1" (cleanAttributes []) (4 - 0)
        ⟨JVal.str "m", JVal.undef, JVal.undef, false, []⟩ JVal.undef).attrs "errorMessage"
      = some (JVal.str "m") := by
  have h := instrumentFirebaseCall_reject_logs_and_rethrows (α := Nat) "op"
    ⟨JVal.str "m", JVal.undef, JVal.undef, false, []⟩ JVal.null JVal.undef [] "u1" 0 4 rfl
  exact ⟨rfl, h.1, h.2.2.2.2.2.2.2.2⟩

/-! ## Claim C2 (amended): successful operations -/

/-- C2 (amended: the payload must be absent or JSON-serializable — see
`instrumentFirebaseCall_cyclic_payload_resolve_cex`).  For every
operation whose wrapped promise resolves with `v`, the adapter emits
exactly one "`<op> - Initiated`" log followed by exactly one
"`<op> - Success`" log, the two sharing one `callId` attribute; the
success log's `durationMs` is the elapsed clock difference, which is
non-negative since `performance.now()` is monotone; and the adapter
returns `v` unchanged. -/
theorem instrumentFirebaseCall_resolve_logs_and_returns {α : Type}
    (op : String) (v : α) (payload pa : JVal) (tags : Obj) (uid : String)
    (t0 t1 : Int) (hpay : payloadAttrOf payload = Except.ok pa)
    (hclock : t0 ≤ t1) :
    instrumentFirebaseCall op (Except.ok v : Except JError α) payload tags uid t0 t1
      = RunResult.done
          [initiatedLogOf op uid (cleanAttributes tags) pa,
           successLogOf op uid (cleanAttributes tags) (t1 - t0)]
          (Except.ok v)
    ∧ (initiatedLogOf op uid (cleanAttributes tags) pa).level = LogLevel.info
    ∧ (initiatedLogOf op uid (cleanAttributes tags) pa).message = op ++ " - Initiated"
    ∧ (successLogOf op uid (cleanAttributes tags) (t1 - t0)).level = LogLevel.info
    ∧ (successLogOf op uid (cleanAttributes tags) (t1 - t0)).message = op ++ " - Success"
    ∧ ([initiatedLogOf op uid (cleanAttributes tags) pa,
        successLogOf op uid (cleanAttributes tags) (t1 - t0)].countP
          fun l => l.message == op ++ " - Initiated") = 1
    ∧ ([initiatedLogOf op uid (cleanAttributes tags) pa,
        successLogOf op uid (cleanAttributes tags) (t1 - t0)].countP
          fun l => l.message == op ++ " - Success") = 1
    ∧ getAttr (initiatedLogOf op uid (cleanAttributes tags) pa).attrs "callId"
        = getAttr (successLogOf op uid (cleanAttributes tags) (t1 - t0)).attrs "callId"
    ∧ getAttr (successLogOf op uid (cleanAttributes tags) (t1 - t0)).attrs "durationMs"
        = some (JVal.num (t1 - t0))
    ∧ 0 ≤ t1 - t0 := by
  refine ⟨instrumentFirebaseCall_ok_eq op v payload pa tags uid t0 t1 hpay,
    rfl, rfl, rfl, rfl, ?_, ?_, ?_, ?_, sub_nonneg.mpr hclock⟩
  · apply countP_pair
    · exact beq_self_eq_true _
    · exact beq_eq_false_iff_ne.mpr
        (string_append_right_ne op " - Success" " - Initiated" (by decide))
  · apply countP_pair_snd
    · exact beq_eq_false_iff_ne.mpr
        (string_append_right_ne op " - Initiated" " - Success" (by decide))
    · exact beq_self_eq_true _
  · rw [show (initiatedLogOf op uid (cleanAttributes tags) pa).attrs
        = commonAttrsOf op uid ++ cleanAttributes tags ++
            [("payload", pa), ("callStatus", JVal.str "initiated")] from rfl,
      show (successLogOf op uid (cleanAttributes tags) (t1 - t0)).attrs
        = commonAttrsOf op uid ++ cleanAttributes tags ++
            [("durationMs", JVal.num (t1 - t0)), ("callStatus", JVal.str "success")]
        from rfl,
      getAttr_cct (commonAttrsOf op uid) (cleanAttributes tags)
        [("payload", pa), ("callStatus", JVal.str "initiated")] "callId" rfl,
      getAttr_cct (commonAttrsOf op uid) (cleanAttributes tags)
        [("durationMs", JVal.num (t1 - t0)), ("callStatus", JVal.str "success")]
        "callId" rfl]
  · exact getAttr_cct_some (commonAttrsOf op uid) (cleanAttributes tags)
      [("durationMs", JVal.num (t1 - t0)), ("callStatus", JVal.str "success")]
      "durationMs" (JVal.num (t1 - t0)) rfl

/-- C2 counterexample (claim as frozen): a resolving operation whose
payload is a cyclic object.  `JSON.stringify(payload)` at line 63 throws
before any `DdLogs` call: the adapter emits NO log and rejects with the
stringify exception instead of returning the resolved value. -/
theorem instrumentFirebaseCall_cyclic_payload_resolve_cex :
    instrumentFirebaseCall "op" (Except.ok (37 : Nat)) (JVal.objBad "boom") [] "id2" 0 5
      = RunResult.setupThrow "boom"
    ∧ runLogsOf (instrumentFirebaseCall "op" (Except.ok (37 : Nat))
        (JVal.objBad "boom") [] "id2" 0 5) = [] :=
  ⟨rfl, rfl⟩

/-- Witness for C2 at a concrete successful call (Scenario A shape):
payload `{nome: "buy milk"}`, resolved value returned unchanged. -/
theorem instrumentFirebaseCall_resolve_logs_witness :
    payloadAttrOf (JVal.obj [("nome", JVal.str "buy milk")])
      = Except.ok (JVal.str "\x7b\"nome\":\"buy milk\"\x7d")
    ∧ (0 : Int) ≤ 7
    ∧ instrumentFirebaseCall "Add Doc" (Except.ok (42 : Nat))
        (JVal.obj [("nome", JVal.str "buy milk")]) [] "u2" 0 7
      = RunResult.done
          [initiatedLogOf "Add Doc" "u2" (cleanAttributes [])
             (JVal.str "\x7b\"nome\":\"buy milk\"\x7d"),
           successLogOf "Add Doc" "u2" (cleanAttributes []) (7 - 0)]
          (Except.ok 42)
    ∧ getAttr (successLogOf "Add Doc" "u2" (cleanAttributes []) (7 - 0)).attrs
        "durationMs" = some (JVal.num (7 - 0)) := by
  have h := instrumentFirebaseCall_resolve_logs_and_returns (α := Nat) "Add Doc" 42
    (JVal.obj [("nome", JVal.str "buy milk")]) (JVal.str "\x7b\"nome\":\"buy milk\"\x7d")
    [] "u2" 0 7 rfl (by decide)
  exact ⟨rfl, by decide, h.1, h.2.2.2.2.2.2.2.2.1⟩

/-! ## Claim C5 (amended): errorCode extraction -/

/-- C5 (amended: the code field must be present AND truthy to be used —
see `instrumentFirebaseCall_errorCode_falsy_cex`; the source computes
`error.code || 'unknown_code'`, a truthiness test, not a presence test).
For every failing operation, the "Failed" log's `errorCode` equals the
error's `code` field when that field is truthy and the sentinel
`"unknown_code"` otherwise; the same error value is re-thrown. -/
theorem instrumentFirebaseCall_errorCode_truthy {α : Type}
    (op : String) (e : JError) (payload pa : JVal) (tags : Obj) (uid : String)
    (t0 t1 : Int) (hpay : payloadAttrOf payload = Except.ok pa) :
    instrumentFirebaseCall op (Except.error e : Except JError α) payload tags uid t0 t1
      = RunResult.done
          [initiatedLogOf op uid (cleanAttributes tags) pa,
           failedLogOf op uid (cleanAttributes tags) (t1 - t0) e pa]
          (Except.error e)
    ∧ getAttr (failedLogOf op uid (cleanAttributes tags) (t1 - t0) e pa).attrs "errorCode"
        = some (if truthy e.code then e.code else JVal.str "unknown_code") := by
  refine ⟨instrumentFirebaseCall_failed_eq op e payload pa tags uid t0 t1 hpay, ?_⟩
  exact failed_getAttr_tail_some op uid (cleanAttributes tags) (t1 - t0) e pa
    "errorCode" (if truthy e.code then e.code else JVal.str "unknown_code")
    (fun p => error_prefix_ne_key p "errorCode" (by decide)) rfl

/-- C5 counterexample (claim as frozen): an error whose `code` field is
present but falsy (the empty string).  The claim says a present code
field is used verbatim; the code's `error.code || 'unknown_code'`
replaces it with the sentinel. -/
theorem instrumentFirebaseCall_errorCode_falsy_cex :
    (⟨JVal.str "m", JVal.str "", JVal.undef, false, []⟩ : JError).code = JVal.str ""
    ∧ getAttr (logAt (runLogsOf (instrumentFirebaseCall "op"
        (Except.error ⟨JVal.str "m", JVal.str "", JVal.undef, false, []⟩
          : Except JError Nat)
        JVal.null [] "u7" 0 3)) 1).attrs "errorCode"
      = some (JVal.str "unknown_code")
    ∧ JVal.str "unknown_code" ≠ JVal.str "" := by
  refine ⟨rfl, rfl, ?_⟩
  intro h
  have h2 : "unknown_code" = "" := by injection h
  exact absurd h2 (by decide)

/-- Witness for C5 at Scenario B's rejection
`{message: "permission-denied", code: "permission-denied"}`. -/
theorem instrumentFirebaseCall_errorCode_witness :
    payloadAttrOf JVal.null = Except.ok JVal.undef
    ∧ instrumentFirebaseCall "op"
        (Except.error ⟨JVal.str "permission-denied", JVal.str "permission-denied",
           JVal.undef, false, []⟩ : Except JError Nat)
        JVal.null [] "u3" 0 2
      = RunResult.done
          [initiatedLogOf "op" "u3" (cleanAttributes []) JVal.undef,
           failedLogOf "op" "u3" (cleanAttributes []) (2 - 0)
             ⟨JVal.str "permission-denied", JVal.str "permission-denied",
              JVal.undef, false, []⟩ JVal.undef]
          (Except.error ⟨JVal.str "permission-denied", JVal.str "permission-denied",
             JVal.undef, false, []⟩)
    ∧ getAttr (failedLogOf "op" "u3" (cleanAttributes []) (2 - 0)
        ⟨JVal.str "permission-denied", JVal.str "permission-denied",
         JVal.undef, false, []⟩ JVal.undef).attrs "errorCode"
      = some (JVal.str "permission-denied") := by
  have h := instrumentFirebaseCall_errorCode_truthy (α := Nat) "op"
    ⟨JVal.str "permission-denied", JVal.str "permission-denied", JVal.undef, false, []⟩
    JVal.null JVal.undef [] "u3" 0 2 rfl
  exact ⟨rfl, h.1, h.2⟩

/-! ## Claim C7 (amended): error_<prop> attributes -/

/-- C7 (amended: the property-copying loop runs only when the rejection
value is an `instanceof Error` — see
`instrumentFirebaseCall_non_error_props_cex`).  For every failing
operation whose error is an Error instance, the "Failed" log carries,
for each enumerable own property other than `message` and `stack`, an
attribute `error_<propertyName>` holding that property's value, with
non-array object values serialized to text (and a throwing
serialization replaced by the diagnostic placeholder). -/
theorem instrumentFirebaseCall_error_props_logged {α : Type}
    (op : String) (e : JError) (payload pa : JVal) (tags : Obj) (uid : String)
    (t0 t1 : Int) (prop : String) (v : JVal)
    (hpay : payloadAttrOf payload = Except.ok pa)
    (hE : e.isError = true) (hnd : (objKeys e.ownProps).Nodup)
    (hmem : (prop, v) ∈ e.ownProps) (hs : prop ≠ "stack") (hm : prop ≠ "message") :
    instrumentFirebaseCall op (Except.error e : Except JError α) payload tags uid t0 t1
      = RunResult.done
          [initiatedLogOf op uid (cleanAttributes tags) pa,
           failedLogOf op uid (cleanAttributes tags) (t1 - t0) e pa]
          (Except.error e)
    ∧ getAttr (failedLogOf op uid (cleanAttributes tags) (t1 - t0) e pa).attrs
        ("error_" ++ prop) = some (cleanValue v)
    ∧ (¬(jtypeof v = "object" ∧ isArray v = false) → cleanValue v = v)
    ∧ (∀ s, jtypeof v = "object" ∧ isArray v = false →
        jsonStringify v = Except.ok s → cleanValue v = JVal.str s) := by
  refine ⟨instrumentFirebaseCall_failed_eq op e payload pa tags uid t0 t1 hpay,
    ?_, ?_, ?_⟩
  · show getAttr (failedLogOf op uid (cleanAttributes tags) (t1 - t0) e pa).attrs
        ("error_" ++ prop) = some (cleanValue v)
    simp only [failedLogOf, hE, if_true]
    exact addErrorProps_getAttr_mem e.ownProps _ prop v hnd hmem hs hm
  · intro hno
    simp only [cleanValue, if_neg hno]
  · intro s hobj hjs
    simp only [cleanValue, if_pos hobj, hjs]

/-- C7 counterexample (claim as frozen): a rejection with a plain
(non-Error) object carrying an extra enumerable own property.  The
`instanceof Error` guard at line 100 skips the copying loop, so the
"Failed" log has no `error_extra` attribute. -/
theorem instrumentFirebaseCall_non_error_props_cex :
    (⟨JVal.str "m", JVal.undef, JVal.undef, false,
        [("extra", JVal.str "x")]⟩ : JError).ownProps = [("extra", JVal.str "x")]
    ∧ getAttr (logAt (runLogsOf (instrumentFirebaseCall "op"
        (Except.error ⟨JVal.str "m", JVal.undef, JVal.undef, false,
           [("extra", JVal.str "x")]⟩ : Except JError Nat)
        JVal.null [] "u8" 0 3)) 1).attrs "error_extra" = none :=
  ⟨rfl, rfl⟩

/-- Witness for C7 at an Error instance carrying an enumerable own
`code` property. -/
theorem instrumentFirebaseCall_error_props_witness :
    payloadAttrOf JVal.null = Except.ok JVal.undef
    ∧ (⟨JVal.str "m", JVal.str "unavailable", JVal.str "trace", true,
         [("code", JVal.str "unavailable"), ("name", JVal.str "FirebaseError")]⟩
        : JError).isError = true
    ∧ ("code", JVal.str "unavailable")
        ∈ (⟨JVal.str "m", JVal.str "unavailable", JVal.str "trace", true,
             [("code", JVal.str "unavailable"), ("name", JVal.str "FirebaseError")]⟩
            : JError).ownProps
    ∧ getAttr (failedLogOf "op" "u4" (cleanAttributes []) (3 - 0)
        ⟨JVal.str "m", JVal.str "unavailable", JVal.str "trace", true,
         [("code", JVal.str "unavailable"), ("name", JVal.str "FirebaseError")]⟩
        JVal.undef).attrs ("error_" ++ "code")
      = some (cleanValue (JVal.str "unavailable")) := by
  have h := instrumentFirebaseCall_error_props_logged (α := Nat) "op"
    ⟨JVal.str "m", JVal.str "unavailable", JVal.str "trace", true,
     [("code", JVal.str "unavailable"), ("name", JVal.str "FirebaseError")]⟩
    JVal.null JVal.undef [] "u4" 0 3 "code" (JVal.str "unavailable")
    rfl rfl (by decide) (List.mem_cons_self _ _) (by decide) (by decide)
  exact ⟨rfl, rfl, List.mem_cons_self _ _, h.2.1⟩

/-! ## Claim C9: the Initiated log's payload attribute -/

/-- C9 — For every call to the adapter (with serializable payload, so
that the Initiated log exists at all): the first emitted log is the
"Initiated" log; its `payload` attribute is the serialized payload text
when a payload was provided, and the `undefined` value — i.e. no
transmitted payload attribute, since JSON transmission drops
undefined-valued properties — when the payload was absent
(null/undefined). -/
theorem instrumentFirebaseCall_initiated_payload_attr {α : Type}
    (op : String) (outcome : Except JError α) (payload pa : JVal)
    (tags : Obj) (uid : String) (t0 t1 : Int)
    (hpay : payloadAttrOf payload = Except.ok pa) :
    (runLogsOf (instrumentFirebaseCall op outcome payload tags uid t0 t1)).head?
      = some (initiatedLogOf op uid (cleanAttributes tags) pa)
    ∧ getAttr (initiatedLogOf op uid (cleanAttributes tags) pa).attrs "payload"
        = some pa
    ∧ (∀ s, isNull payload = false → isUndef payload = false →
        jsonStringify payload = Except.ok s → pa = JVal.str s)
    ∧ (isNull payload = true ∨ isUndef payload = true → pa = JVal.undef) := by
  refine ⟨?_, ?_, ?_, ?_⟩
  · cases outcome with
    | ok v => rw [instrumentFirebaseCall_ok_eq op v payload pa tags uid t0 t1 hpay]; rfl
    | error e => rw [instrumentFirebaseCall_failed_eq op e payload pa tags uid t0 t1 hpay]; rfl
  · exact getAttr_cct_some (commonAttrsOf op uid) (cleanAttributes tags)
      [("payload", pa), ("callStatus", JVal.str "initiated")] "payload" pa rfl
  · intro s h1 h2 hjs
    have h := hpay
    simp only [payloadAttrOf, h1, h2, hjs, ne_eq, not_false_eq_true, and_self,
      if_true] at h
    exact (by injection h : JVal.str s = pa).symm
  · intro hnl
    have h := hpay
    rcases hnl with h1 | h1 <;>
      simp only [payloadAttrOf, h1, Bool.true_eq_false, false_and, and_false,
        if_false] at h <;>
      exact (by injection h : JVal.undef = pa).symm

/-- Witness for C9 at a provided numeric payload. -/
theorem instrumentFirebaseCall_initiated_payload_witness :
    payloadAttrOf (JVal.num 5) = Except.ok (JVal.str "5")
    ∧ (runLogsOf (instrumentFirebaseCall "op" (Except.ok (0 : Nat))
        (JVal.num 5) [] "u9" 0 1)).head?
      = some (initiatedLogOf "op" "u9" (cleanAttributes []) (JVal.str "5"))
    ∧ getAttr (initiatedLogOf "op" "u9" (cleanAttributes []) (JVal.str "5")).attrs
        "payload" = some (JVal.str "5") := by
  have h := instrumentFirebaseCall_initiated_payload_attr (α := Nat) "op"
    (Except.ok 0) (JVal.num 5) (JVal.str "5") [] "u9" 0 1 rfl
  exact ⟨rfl, h.1, h.2.1⟩

/-! ## Live-query subscription wrapper (`loggedOnSnapshot`, lines 172–243)

The wrapper registers three closures with the external `onSnapshot`
service: a data callback, an error callback, and (as return value) a
cancellation handle.  We embed each closure as the finite sequence of
observable actions it performs, and the whole subscription as the action
trace produced by a list of delivery/cancel events. -/

/-- Lines 183–188: the "listener initiated" log. -/
def snapshotInitLog (collectionName uid : String) (cleanedCustomTags : Obj) : LogEntry :=
  ⟨LogLevel.info,
    "Firestore: Snapshot listener for " ++ collectionName ++ " initiated",
    [("listenerId", JVal.str uid),
     ("firebaseOperation", JVal.str "onSnapshot_listener_start"),
     ("collectionName", JVal.str collectionName)] ++ cleanedCustomTags⟩

/-- Lines 193–199: the "data received" log with the batch size. -/
def snapshotDataLog (collectionName uid : String) (cleanedCustomTags : Obj)
    (docCount : Nat) : LogEntry :=
  ⟨LogLevel.info,
    "Firestore: Snapshot data received for " ++ collectionName,
    [("listenerId", JVal.str uid),
     ("firebaseOperation", JVal.str "onSnapshot_data"),
     ("collectionName", JVal.str collectionName),
     ("documentCount", JVal.num docCount)] ++ cleanedCustomTags⟩

/-- Lines 203–228: the "listener error" log with the same error-detail
extraction as the call adapter. -/
def snapshotErrorLog (collectionName uid : String) (cleanedCustomTags : Obj)
    (e : JError) : LogEntry :=
  ⟨LogLevel.error,
    "Firestore: Snapshot listener error for " ++ collectionName,
    (let base :=
      [("listenerId", JVal.str uid),
       ("firebaseOperation", JVal.str "onSnapshot_error"),
       ("collectionName", JVal.str collectionName),
       ("errorMessage", e.message),
       ("errorCode", if truthy e.code then e.code else JVal.str "unknown_code"),
       ("errorStack", e.stack)] ++ cleanedCustomTags
    if e.isError then addErrorProps base e.ownProps else base)⟩

/-- Lines 236–241: the "listener unsubscribed" log. -/
def snapshotUnsubLog (collectionName uid : String) (cleanedCustomTags : Obj) : LogEntry :=
  ⟨LogLevel.info,
    "Firestore: Snapshot listener for " ++ collectionName ++ " unsubscribed",
    [("listenerId", JVal.str uid),
     ("firebaseOperation", JVal.str "onSnapshot_listener_end"),
     ("collectionName", JVal.str collectionName)] ++ cleanedCustomTags⟩

/-- One external stimulus applied to an active subscription. -/
inductive ListenerEvent : Type where
  | data : Nat → ListenerEvent
  | fail : JError → ListenerEvent
  | cancel : ListenerEvent

/-- One observable action performed by the wrapper's closures. -/
inductive ListenerAction : Type where
  | log : LogEntry → ListenerAction
  | callerOnNext : Nat → ListenerAction
  | callerOnError : JError → ListenerAction
  | underlyingUnsubscribe : ListenerAction

/-- Lines 192–201: the wrapped data callback — emit the data log, then
forward the snapshot (of `n` documents) to the caller's `onNext`. -/
def onNextHandler (collectionName uid : String) (ct : Obj) (n : Nat) :
    List ListenerAction :=
  [ListenerAction.log (snapshotDataLog collectionName uid ct n),
   ListenerAction.callerOnNext n]

/-- Lines 202–230: the wrapped error callback — emit the error log, then
forward to the caller's `onError` if one was provided. -/
def onErrorHandler (collectionName uid : String) (ct : Obj) (hasOnError : Bool)
    (e : JError) : List ListenerAction :=
  ListenerAction.log (snapshotErrorLog collectionName uid ct e) ::
    (if hasOnError then [ListenerAction.callerOnError e] else [])

/-- Lines 234–242: the returned cancellation handle — call the underlying
`unsubscribe()`, then emit the unsubscribed log. -/
def cancelHandler (collectionName uid : String) (ct : Obj) : List ListenerAction :=
  [ListenerAction.underlyingUnsubscribe,
   ListenerAction.log (snapshotUnsubLog collectionName uid ct)]

/-- Dispatch of stimuli to the registered closures (the external
`onSnapshot` service invokes the matching callback per event; `cancel`
invokes the returned handle). -/
def runEvents (collectionName uid : String) (ct : Obj) (hasOnError : Bool) :
    List ListenerEvent → List ListenerAction
  | [] => []
  | ev :: rest =>
      (match ev with
       | ListenerEvent.data n => onNextHandler collectionName uid ct n
       | ListenerEvent.fail e => onErrorHandler collectionName uid ct hasOnError e
       | ListenerEvent.cancel => cancelHandler collectionName uid ct)
      ++ runEvents collectionName uid ct hasOnError rest

/-- The full observable trace of a subscription created by
`loggedOnSnapshot` (lines 172–243): the init log is emitted once at
subscription time, then each event triggers its handler. -/
def loggedOnSnapshotRun (collectionName uid : String) (customTags : Obj)
    (hasOnError : Bool) (events : List ListenerEvent) : List ListenerAction :=
  ListenerAction.log (snapshotInitLog collectionName uid (cleanAttributes customTags)) ::
    runEvents collectionName uid (cleanAttributes customTags) hasOnError events

/-- The logs contained in an action trace. -/
def actionLogs (actions : List ListenerAction) : List LogEntry :=
  actions.filterMap fun a =>
    match a with
    | ListenerAction.log entry => some entry
    | _ => none

/-- Recognizer for the underlying-unsubscribe action. -/
def isUnderlyingUnsub : ListenerAction → Bool
  | ListenerAction.underlyingUnsubscribe => true
  | _ => false

/-! ## Claim C4 (amended): subscription lifecycle -/

/-- C4 counterexample (claim as frozen): a subscription created with a
custom tag named `documentCount`.  The source spreads
`...cleanedCustomTags` AFTER `documentCount: snapshot.docs.length`
(line 198), so the tag overrides the logged batch size: for a received
batch of 3 documents the "data received" log's `documentCount`
attribute is the tag value 99, not the number of items in the batch —
refuting the unrestricted claim. -/
theorem loggedOnSnapshot_tag_shadow_cex :
    getAttr (logAt (actionLogs (loggedOnSnapshotRun "todos" "lid2"
        [("documentCount", JVal.num 99)] false
        [ListenerEvent.data 3, ListenerEvent.cancel])) 1).attrs "documentCount"
      = some (JVal.num 99)
    ∧ some (JVal.num 99) ≠ some (JVal.num 3) := by
  refine ⟨rfl, ?_⟩
  intro h
  have h2 : JVal.num 99 = JVal.num 3 := by injection h
  have h3 : (99 : Int) = 3 := by injection h2
  exact absurd h3 (by decide)

/-- C4 (amended: the caller's custom tags must not reuse the reserved
attribute names `documentCount`/`listenerId`, which the source spreads
last — see `loggedOnSnapshot_tag_shadow_cex` for why the restriction is
forced).  For every such subscription made through the wrapper:
exactly one "listener initiated" log is emitted at subscription time;
every data callback invocation emits exactly one "data received" log
carrying the batch size BEFORE forwarding to the caller's callback;
invoking the cancellation handle calls the underlying unsubscribe and
emits one "listener unsubscribed" log; all these logs carry the same
listener id; and the scenario subscribe → one batch of 3 → cancel yields
exactly the three logs init, data(count=3), unsubscribed. -/
theorem loggedOnSnapshot_lifecycle_logs (cn uid : String) (customTags : Obj)
    (hasOnError : Bool) (events : List ListenerEvent) (n : Nat)
    (hdc : getAttr (cleanAttributes customTags) "documentCount" = none)
    (hlid : getAttr (cleanAttributes customTags) "listenerId" = none) :
    loggedOnSnapshotRun cn uid customTags hasOnError events
      = ListenerAction.log (snapshotInitLog cn uid (cleanAttributes customTags))
          :: runEvents cn uid (cleanAttributes customTags) hasOnError events
    ∧ onNextHandler cn uid (cleanAttributes customTags) n
        = [ListenerAction.log (snapshotDataLog cn uid (cleanAttributes customTags) n),
           ListenerAction.callerOnNext n]
    ∧ getAttr (snapshotDataLog cn uid (cleanAttributes customTags) n).attrs
        "documentCount" = some (JVal.num n)
    ∧ cancelHandler cn uid (cleanAttributes customTags)
        = [ListenerAction.underlyingUnsubscribe,
           ListenerAction.log (snapshotUnsubLog cn uid (cleanAttributes customTags))]
    ∧ getAttr (snapshotInitLog cn uid (cleanAttributes customTags)).attrs
        "listenerId" = some (JVal.str uid)
    ∧ getAttr (snapshotDataLog cn uid (cleanAttributes customTags) n).attrs
        "listenerId" = some (JVal.str uid)
    ∧ getAttr (snapshotUnsubLog cn uid (cleanAttributes customTags)).attrs
        "listenerId" = some (JVal.str uid)
    ∧ actionLogs (loggedOnSnapshotRun cn uid customTags hasOnError
        [ListenerEvent.data 3, ListenerEvent.cancel])
      = [snapshotInitLog cn uid (cleanAttributes customTags),
         snapshotDataLog cn uid (cleanAttributes customTags) 3,
         snapshotUnsubLog cn uid (cleanAttributes customTags)] := by
  refine ⟨rfl, rfl, ?_, rfl, ?_, ?_, ?_, ?_⟩
  · show getAttr
      ([("listenerId", JVal.str uid),
        ("firebaseOperation", JVal.str "onSnapshot_data"),
        ("collectionName", JVal.str cn),
        ("documentCount", JVal.num n)] ++ cleanAttributes customTags)
      "documentCount" = some (JVal.num n)
    rw [getAttr_append, hdc]
    rfl
  · show getAttr
      ([("listenerId", JVal.str uid),
        ("firebaseOperation", JVal.str "onSnapshot_listener_start"),
        ("collectionName", JVal.str cn)] ++ cleanAttributes customTags)
      "listenerId" = some (JVal.str uid)
    rw [getAttr_append, hlid]
    rfl
  · show getAttr
      ([("listenerId", JVal.str uid),
        ("firebaseOperation", JVal.str "onSnapshot_data"),
        ("collectionName", JVal.str cn),
        ("documentCount", JVal.num n)] ++ cleanAttributes customTags)
      "listenerId" = some (JVal.str uid)
    rw [getAttr_append, hlid]
    rfl
  · show getAttr
      ([("listenerId", JVal.str uid),
        ("firebaseOperation", JVal.str "onSnapshot_listener_end"),
        ("collectionName", JVal.str cn)] ++ cleanAttributes customTags)
      "listenerId" = some (JVal.str uid)
    rw [getAttr_append, hlid]
    rfl
  · simp [loggedOnSnapshotRun, runEvents, onNextHandler, cancelHandler, actionLogs]

/-- Witness for C4: Scenario C at empty custom tags. -/
theorem loggedOnSnapshot_lifecycle_witness :
    getAttr (cleanAttributes []) "documentCount" = none
    ∧ getAttr (cleanAttributes []) "listenerId" = none
    ∧ actionLogs (loggedOnSnapshotRun "todos" "lid1" [] false
        [ListenerEvent.data 3, ListenerEvent.cancel])
      = [snapshotInitLog "todos" "lid1" (cleanAttributes []),
         snapshotDataLog "todos" "lid1" (cleanAttributes []) 3,
         snapshotUnsubLog "todos" "lid1" (cleanAttributes [])]
    ∧ getAttr (snapshotInitLog "todos" "lid1" (cleanAttributes [])).attrs
        "listenerId" = some (JVal.str "lid1")
    ∧ getAttr (snapshotDataLog "todos" "lid1" (cleanAttributes []) 3).attrs
        "listenerId" = some (JVal.str "lid1")
    ∧ getAttr (snapshotUnsubLog "todos" "lid1" (cleanAttributes [])).attrs
        "listenerId" = some (JVal.str "lid1")
    ∧ getAttr (snapshotDataLog "todos" "lid1" (cleanAttributes []) 3).attrs
        "documentCount" = some (JVal.num 3) := by
  have h := loggedOnSnapshot_lifecycle_logs "todos" "lid1" [] false
    [ListenerEvent.data 3, ListenerEvent.cancel] 3 rfl rfl
  exact ⟨rfl, rfl, h.2.2.2.2.2.2.2, h.2.2.2.2.1, h.2.2.2.2.2.1, h.2.2.2.2.2.2.1,
    h.2.2.1⟩

/-! ## Claim C10: the cancellation handle is not idempotent -/

theorem countP_runEvents_cancel (cn uid : String) (ct : Obj) (hasOnError : Bool)
    (n : Nat) :
    ((runEvents cn uid ct hasOnError (List.replicate n ListenerEvent.cancel)).countP
      isUnderlyingUnsub) = n := by
  induction n with
  | zero => rfl
  | succ m ih =>
      simp only [List.replicate_succ, runEvents, cancelHandler, List.countP_append]
      rw [ih]
      simp [List.countP_cons, isUnderlyingUnsub]
      omega

theorem actionLogs_runEvents_cancel (cn uid : String) (ct : Obj) (hasOnError : Bool)
    (n : Nat) :
    actionLogs (runEvents cn uid ct hasOnError (List.replicate n ListenerEvent.cancel))
      = List.replicate n (snapshotUnsubLog cn uid ct) := by
  induction n with
  | zero => rfl
  | succ m ih =>
      simp only [List.replicate_succ, runEvents, cancelHandler, actionLogs,
        List.filterMap_append] at ih ⊢
      rw [ih]
      rfl

/-- C10 — Each invocation of the returned cancellation handle first calls
the underlying query's unsubscribe and then emits one "listener
unsubscribed" log carrying the subscription's listener id; the handle is
not idempotent: `n` invocations perform `n` underlying unsubscribe calls
and emit `n` such logs (plus the single init log). -/
theorem loggedOnSnapshot_cancel_not_idempotent (cn uid : String) (customTags : Obj)
    (hasOnError : Bool) (n : Nat) :
    cancelHandler cn uid (cleanAttributes customTags)
      = [ListenerAction.underlyingUnsubscribe,
         ListenerAction.log (snapshotUnsubLog cn uid (cleanAttributes customTags))]
    ∧ ((loggedOnSnapshotRun cn uid customTags hasOnError
          (List.replicate n ListenerEvent.cancel)).countP isUnderlyingUnsub) = n
    ∧ actionLogs (loggedOnSnapshotRun cn uid customTags hasOnError
          (List.replicate n ListenerEvent.cancel))
        = snapshotInitLog cn uid (cleanAttributes customTags)
            :: List.replicate n (snapshotUnsubLog cn uid (cleanAttributes customTags)) := by
  refine ⟨rfl, ?_, ?_⟩
  · simp only [loggedOnSnapshotRun, List.countP_cons]
    rw [countP_runEvents_cancel]
    simp [isUnderlyingUnsub]
  · simp only [loggedOnSnapshotRun, actionLogs, List.filterMap_cons]
    have h := actionLogs_runEvents_cancel cn uid (cleanAttributes customTags) hasOnError n
    simp only [actionLogs] at h
    rw [h]
